import Mathlib

/-!
Shallow embedding of the `spam_filter` curation pipeline
(local-ai-zone/local-ai-zone.github.io, `src/spam_filter/`) in Lean 4,
together with theorems settling the specification claims about it.

Python dictionaries backing a model entry are embedded as a structure whose
dynamically-typed fields (`fileSize`, `downloadCount`) use `PyVal`, so that
the `TypeError` a Python comparison raises on a non-numeric value is modelled
by an `Except.error`.  Fallible code paths are `Except`-valued; pure string
and arithmetic code is translated directly, with `ℚ` standing in for Python
floats (no claim probes binary-float rounding).
-/

namespace SpamFilter

/-- Dynamically typed value of a Python dict field.  `vnone` stands for an
absent key (so `dict.get(k, 0)` yields `0` for it). -/
inductive PyVal where
  | vint (n : Int)
  | vstr (s : String)
  | vnone
deriving DecidableEq, Repr

/-- Python `\w` character class (ASCII): letters, digits, underscore. -/
def isWordChar (c : Char) : Bool :=
  c.isAlphanum || c = '_'

/-- Does `l` start with the character list `p`? -/
def listStartsWith : List Char → List Char → Bool
  | [], _ => true
  | _ :: _, [] => false
  | p :: ps, c :: cs => p = c && listStartsWith ps cs

/-- Python `sub in s` substring test, on character lists. -/
def substrSearch (w : List Char) : List Char → Bool
  | [] => listStartsWith w []
  | c :: cs => listStartsWith w (c :: cs) || substrSearch w cs

/-- Python `sub in s` substring test on strings. -/
def containsSubstr (s sub : String) : Bool :=
  substrSearch sub.data s.data

/-- Regex `\b` holds before the current position given the previous character. -/
def boundaryBefore : Option Char → Bool
  | none => true
  | some p => !isWordChar p

/-- Regex `\b` holds at the start of the remaining character list. -/
def boundaryAfter : List Char → Bool
  | [] => true
  | c :: _ => !isWordChar c

/-- Scan for a word-bounded occurrence of `w` (regex `\bw\b` with `w` made of
word characters), tracking the previous character for the left boundary. -/
def wordSearchFrom (w : List Char) : Option Char → List Char → Bool
  | _, [] => false
  | prev, c :: cs =>
    (boundaryBefore prev && listStartsWith w (c :: cs) &&
      boundaryAfter ((c :: cs).drop w.length))
    || wordSearchFrom w (some c) cs

/-- Regex search for `\bw\b` in `s` (`w` a literal made of word characters). -/
def wordSearch (w s : String) : Bool :=
  wordSearchFrom w.data none s.data

/-- A maximal run of decimal digits at the head of the list, with the rest. -/
def spanDigits (cs : List Char) : List Char × List Char :=
  (cs.takeWhile Char.isDigit, cs.dropWhile Char.isDigit)

/-- Numeric value of a list of decimal digits. -/
def digitsToNat (cs : List Char) : Nat :=
  cs.foldl (fun acc c => acc * 10 + (c.toNat - 48)) 0

/-- Embedding of `FilterConfig` (`src/spam_filter/config.py`), with the
Python float fields as rationals.  Defaults are the dataclass defaults. -/
structure FilterConfig where
  min_size_bytes : Int := 100 * 1024 * 1024
  size_drop_threshold : ℚ := 1 / 20
  min_downloads : Int := 100
  trusted_uploaders : List String :=
    ["TheBloke", "lmstudio", "ggml-org", "koboldai",
     "NousResearch", "abacaj", "OpenAccessAI", "microsoft",
     "meta-llama", "mistralai", "google", "anthropic"]
  finetune_patterns : List String :=
    ["instruct", "chat", "code", "alpaca", "vicuna", "wizard",
     "orca", "dolphin", "airoboros", "guanaco", "openassistant",
     "uncensored", "roleplay", "storytelling", "creative",
     "assistant", "helpful", "harmless", "honest"]
  backup_enabled : Bool := true
  detailed_logging : Bool := true
  ram_multiplier : ℚ := 2
  quantization_ram_reduction : ℚ := 3 / 10
  small_model_threshold : Int := 2000000000
  medium_model_threshold : Int := 7000000000
  large_model_threshold : Int := 13000000000
  gpu_required_threshold : Int := 13000000000
  default_os_support : List String := ["Windows", "Linux", "macOS"]
deriving DecidableEq, Repr

/-- Embedding of `FilterConfig.validate`: the error messages, accumulated in
source order. -/
def FilterConfig.validate (c : FilterConfig) : List String :=
  (if c.min_size_bytes ≤ 0 then ["min_size_bytes must be positive"] else [])
  ++ (if ¬(0 < c.size_drop_threshold ∧ c.size_drop_threshold < 1) then
        ["size_drop_threshold must be between 0 and 1"] else [])
  ++ (if c.min_downloads < 0 then ["min_downloads must be non-negative"] else [])
  ++ (if c.trusted_uploaders = [] then ["trusted_uploaders list cannot be empty"] else [])
  ++ (if c.finetune_patterns = [] then ["finetune_patterns list cannot be empty"] else [])
  ++ (if c.ram_multiplier ≤ 0 then ["ram_multiplier must be positive"] else [])
  ++ (if ¬(0 ≤ c.quantization_ram_reduction ∧ c.quantization_ram_reduction ≤ 1) then
        ["quantization_ram_reduction must be between 0 and 1"] else [])
  ++ (if c.small_model_threshold ≤ 0 then ["small_model_threshold must be positive"] else [])
  ++ (if c.medium_model_threshold ≤ c.small_model_threshold then
        ["medium_model_threshold must be greater than small_model_threshold"] else [])
  ++ (if c.large_model_threshold ≤ c.medium_model_threshold then
        ["large_model_threshold must be greater than medium_model_threshold"] else [])
  ++ (if c.gpu_required_threshold ≤ 0 then ["gpu_required_threshold must be positive"] else [])
  ++ (if c.default_os_support = [] then ["default_os_support list cannot be empty"] else [])

/-- The default configuration (every field at its dataclass default). -/
def defaultConfig : FilterConfig := {}

/-- Guard in `scripts/simplified_gguf_fetcher.py` `main` (lines 1214-1220):
the CLI builds the engine and runs the pipeline only when `validate`
returned no errors, otherwise it exits with status 1. -/
def cliStartsPipeline (c : FilterConfig) : Bool :=
  c.validate.isEmpty

/-- One file descriptor of a raw Hugging Face record (`siblings` entry). -/
structure Sibling where
  rfilename : String
  size : PyVal
deriving DecidableEq, Repr

/-- Raw model record as consumed by `SpamFilterEngine.filter_models`. -/
structure RawModel where
  id : String
  siblings : List Sibling
  downloads : PyVal
  likes : Int
  created_at : Option String
deriving DecidableEq, Repr

/-- GGUF file entry: the dict built by `_convert_to_expected_format`, plus
the four hardware fields later attached by the hardware calculator
(`none` while the key is absent from the dict). -/
structure Model where
  modelName : String
  quantFormat : String
  fileSize : PyVal
  fileSizeFormatted : String
  modelType : String
  license : String
  downloadCount : PyVal
  likeCount : Int
  huggingFaceLink : String
  directDownloadLink : String
  uploadDate : Option String
  minRamGB : Option Int := none
  minCpuCores : Option Int := none
  gpuRequired : Option Bool := none
  osSupported : Option (List String) := none
deriving DecidableEq, Repr

/-- Python `v >= m` for a dict value against an int: raises `TypeError`
unless the value is numeric (`vnone` stands for an absent key, which the
callers replace by the `.get` default `0` before comparing). -/
def pyGeInt (v : PyVal) (m : Int) : Except String Bool :=
  match v with
  | .vint n => .ok (decide (n ≥ m))
  | .vstr _ => .error "TypeError: comparison of str and int not supported"
  | .vnone => .error "TypeError: comparison of NoneType and int not supported"

/-- Python `a > b` on two dict values (the `max(..., key=...)` comparison):
ints and strings compare within their own type, anything else raises. -/
def pyGtVal (a b : PyVal) : Except String Bool :=
  match a, b with
  | .vint x, .vint y => .ok (decide (y < x))
  | .vstr x, .vstr y => .ok (decide (y < x))
  | _, _ => .error "TypeError: comparison of mixed types not supported"

/-- Value of `model.get('downloadCount', 0)` as used in numeric comparisons:
an absent key gives the default `0` (and `meets_download_threshold` also
maps an explicit `None` to `0`); a string raises on comparison. -/
def pyDlVal (v : PyVal) : Except String Int :=
  match v with
  | .vint n => .ok n
  | .vnone => .ok 0
  | .vstr _ => .error "TypeError: comparison of str and int not supported"

/-- Size field as a rational, for the Python float division in
`has_significant_size_drop`; non-numeric raises. -/
def pySizeQ (v : PyVal) : Except String ℚ :=
  match v with
  | .vint n => .ok (n : ℚ)
  | _ => .error "TypeError: division of non-numeric sizes not supported"

/-- Python `last_size == 0`: `==` between mismatched types is simply false. -/
def pyEqZero (v : PyVal) : Bool :=
  match v with
  | .vint n => n = 0
  | _ => false

/-- Integer reading of a size field, `0` for non-numeric values; used in
statements about lists whose sizes the code has already forced numeric. -/
def msizeInt (m : Model) : Int :=
  match m.fileSize with
  | .vint n => n
  | _ => 0

/-- Rational reading of a size field, `0` for non-numeric values. -/
def msizeQ (m : Model) : ℚ :=
  match m.fileSize with
  | .vint n => (n : ℚ)
  | _ => 0

/-- Integer reading of a download count, `0` for absent or non-numeric. -/
def dlInt (m : Model) : Int :=
  match m.downloadCount with
  | .vint n => n
  | _ => 0

/-- ModelClassifier: the configured fine-tune vocabulary scan of
`is_finetuned` (word-boundary regex over name and link, case-insensitive). -/
def finetuneVocabMatch (cfg : FilterConfig) (m : Model) : Bool :=
  let name := m.modelName.toLower
  let mid := m.huggingFaceLink.toLower
  cfg.finetune_patterns.any (fun p => wordSearch p.toLower name || wordSearch p.toLower mid)

/-- The CodeLlama special case of `is_finetuned`: name contains `codellama`
together with `instruct` or `chat` (plain substrings, name only). -/
def codellamaRule (m : Model) : Bool :=
  let name := m.modelName.toLower
  containsSubstr name "codellama" &&
    (containsSubstr name "instruct" || containsSubstr name "chat")

/-- The fixed heuristic indicator list of `is_finetuned`. -/
def finetuneIndicators : List String :=
  ["dpo", "rlhf", "sft", "ppo",
   "medical", "legal", "finance", "science",
   "chinese", "japanese", "korean", "german", "french",
   "orca", "wizard"]

/-- The heuristic indicator scan of `is_finetuned` (plain substrings over
name and link). -/
def finetuneIndicatorMatch (m : Model) : Bool :=
  let name := m.modelName.toLower
  let mid := m.huggingFaceLink.toLower
  finetuneIndicators.any (fun i => containsSubstr name i || containsSubstr mid i)

/-- Embedding of `ModelClassifier.is_finetuned`, in source check order. -/
def is_finetuned (cfg : FilterConfig) (m : Model) : Bool :=
  finetuneVocabMatch cfg m || codellamaRule m || finetuneIndicatorMatch m

/-- Word list of the first compiled base-model pattern. -/
def baseArchWords : List String :=
  ["llama", "mistral", "qwen", "deepseek", "phi", "gemma", "falcon", "mpt"]

/-- Regex `\b\d+[bm]\b` searched over a lowercased string, scanning with the
previous character for the left boundary. -/
def sizeTokenFrom : Option Char → List Char → Bool
  | _, [] => false
  | prev, c :: cs =>
    (boundaryBefore prev && c.isDigit &&
      (match cs.dropWhile Char.isDigit with
       | b :: rest => (b = 'b' || b = 'm') && boundaryAfter rest
       | [] => false))
    || sizeTokenFrom (some c) cs

/-- The compiled base-model regex battery of the classifier, applied to one
lowercased string. -/
def basePatternHit (s : String) : Bool :=
  baseArchWords.any (fun w => wordSearch w s)
  || sizeTokenFrom none s.data
  || wordSearch "base" s
  || wordSearch "foundation" s

/-- Scan of the compiled base patterns over name and link. -/
def basePatternMatch (m : Model) : Bool :=
  basePatternHit m.modelName.toLower || basePatternHit m.huggingFaceLink.toLower

/-- Literal base-model indicator list of `is_base_model`. -/
def baseIndicators : List String :=
  ["base", "foundation", "pretrained", "raw",
   "llama-2", "llama-3", "mistral-7b", "qwen", "deepseek",
   "7b", "13b", "70b", "1b", "3b", "8b", "6.7b"]

/-- Literal-substring base indicator scan over name and link. -/
def baseIndicatorMatch (m : Model) : Bool :=
  let name := m.modelName.toLower
  let mid := m.huggingFaceLink.toLower
  baseIndicators.any (fun i => containsSubstr name i || containsSubstr mid i)

/-- Embedding of `ModelClassifier.is_base_model`: false for fine-tuned
entries, true on a base pattern or indicator hit, and true as the
conservative default when nothing matched. -/
def is_base_model (cfg : FilterConfig) (m : Model) : Bool :=
  if is_finetuned cfg m then false
  else if basePatternMatch m then true
  else if baseIndicatorMatch m then true
  else true

/-- Index of the first word-bounded occurrence of `w`, if any. -/
def wordMatchIdxFrom (w : List Char) : Option Char → List Char → Nat → Option Nat
  | _, [], _ => none
  | prev, c :: cs, i =>
    if boundaryBefore prev && listStartsWith w (c :: cs) &&
        boundaryAfter ((c :: cs).drop w.length) then
      some i
    else
      wordMatchIdxFrom w (some c) cs (i + 1)

/-- Generic engine for `re.sub(pat, '', s)`: `matchLen prev rest` returns the
length of a match of `pat` at the current position (with `prev` the original
previous character, for `\b`), and matched spans are dropped, scanning
non-overlapping matches left to right.  Fuel is the string length; every
step consumes at least one character. -/
def scanRemoveB (matchLen : Option Char → List Char → Option Nat) :
    Nat → Option Char → List Char → List Char
  | 0, _, cs => cs
  | _ + 1, _, [] => []
  | fuel + 1, prev, c :: cs =>
    match matchLen prev (c :: cs) with
    | some n =>
      let n' := max n 1
      scanRemoveB matchLen fuel (((c :: cs).take n').getLast?) ((c :: cs).drop n')
    | none => c :: scanRemoveB matchLen fuel (some c) cs

/-- Length of a match of `v\d+\.?\d*` at the head of the list. -/
def matchVersionLen (cs : List Char) : Option Nat :=
  match cs with
  | 'v' :: rest =>
    let ds := rest.takeWhile Char.isDigit
    if ds = [] then none
    else
      match rest.dropWhile Char.isDigit with
      | '.' :: r2 => some (1 + ds.length + 1 + (r2.takeWhile Char.isDigit).length)
      | _ => some (1 + ds.length)
  | _ => none

/-- Length of a match of `\b(gguf|ggml)\b` at the head of the list. -/
def matchGgufLen (prev : Option Char) (cs : List Char) : Option Nat :=
  if boundaryBefore prev &&
      (listStartsWith "gguf".data cs || listStartsWith "ggml".data cs) &&
      boundaryAfter (cs.drop 4) then
    some 4
  else none

/-- Length of a match of `\b(q\d+_\w+|f16|bf16)\b` at the head of the list,
alternatives tried in source order. -/
def matchQuantLen (prev : Option Char) (cs : List Char) : Option Nat :=
  if !boundaryBefore prev then none
  else
    match cs with
    | 'q' :: rest =>
      let ds := rest.takeWhile Char.isDigit
      if ds = [] then none
      else
        match rest.dropWhile Char.isDigit with
        | '_' :: r2 =>
          let ws := r2.takeWhile isWordChar
          if ws = [] then none else some (1 + ds.length + 1 + ws.length)
        | _ => none
    | _ =>
      if listStartsWith "f16".data cs && boundaryAfter (cs.drop 3) then some 3
      else if listStartsWith "bf16".data cs && boundaryAfter (cs.drop 4) then some 4
      else none

/-- Whitespace-run collapse, `re.sub(r'\s+', ' ', s)`, with length fuel. -/
def collapseWs : Nat → List Char → List Char
  | 0, cs => cs
  | _ + 1, [] => []
  | fuel + 1, c :: cs =>
    if c.isWhitespace then ' ' :: collapseWs fuel (cs.dropWhile Char.isWhitespace)
    else c :: collapseWs fuel cs

/-- Python `str.strip()`. -/
def stripStr (cs : List Char) : List Char :=
  ((cs.dropWhile Char.isWhitespace).reverse.dropWhile Char.isWhitespace).reverse

/-- Embedding of `ModelClassifier.get_base_model_group`: lowercase, truncate
at the first fine-tune vocabulary hit, strip version tokens and format
substrings, normalise whitespace, drop non-word characters, and fall back to
the lowercased name when empty. -/
def getBaseModelGroup (cfg : FilterConfig) (m : Model) : String :=
  let name := m.modelName.toLower
  let g := cfg.finetune_patterns.foldl
    (fun acc p =>
      match wordMatchIdxFrom p.toLower.data none acc.data 0 with
      | some i => acc.take i
      | none => acc)
    name
  let cs := g.data
  let cs := scanRemoveB (fun _ rest => matchVersionLen rest) cs.length none cs
  let cs := scanRemoveB matchGgufLen cs.length none cs
  let cs := scanRemoveB matchQuantLen cs.length none cs
  let cs := stripStr (collapseWs cs.length cs)
  let cs := cs.filter (fun c => isWordChar c || c.isWhitespace || c = '-')
  let res := String.mk cs
  if res = "" then name else res

/-- Leftmost match of `huggingface\.co/([^/]+)/`: the captured path segment
after the first `huggingface.co/` that is followed by a non-empty segment
and another slash. -/
def hfSearch : List Char → Option (List Char)
  | [] => none
  | c :: cs =>
    if listStartsWith "huggingface.co/".data (c :: cs) then
      let rest := (c :: cs).drop 15
      let seg := rest.takeWhile (fun ch => ch ≠ '/')
      if seg ≠ [] ∧ rest.drop seg.length ≠ [] then some seg
      else hfSearch cs
    else hfSearch cs

/-- Match of `^([^/\-\s]+)[/\-]\s*` (first uploader fallback pattern):
captured group, anchored at the start of the name. -/
def namePattern1 (cs : List Char) : Option (List Char) :=
  let seg := cs.takeWhile (fun c => c ≠ '/' && c ≠ '-' && !c.isWhitespace)
  if seg = [] then none
  else
    match cs.drop seg.length with
    | c :: _ => if c = '/' ∨ c = '-' then some seg else none
    | [] => none

/-- Consume `(?:[A-Z][a-z]*)*` greedily (no backtracking is ever needed
because a shorter match leaves a letter where whitespace is required). -/
def camelChunks : Nat → List Char → List Char × List Char
  | 0, cs => ([], cs)
  | fuel + 1, c :: cs =>
    if c.isUpper then
      let lo := cs.takeWhile Char.isLower
      let rest := cs.dropWhile Char.isLower
      let (more, rest2) := camelChunks fuel rest
      (c :: (lo ++ more), rest2)
    else ([], c :: cs)
  | _ + 1, [] => ([], [])

/-- Leftmost match of `\b([A-Z][a-z]+(?:[A-Z][a-z]*)*)\s+\-` (second
uploader fallback pattern): the captured CamelCase word. -/
def namePattern2From : Option Char → List Char → Option (List Char)
  | _, [] => none
  | prev, c :: cs =>
    (if boundaryBefore prev ∧ c.isUpper then
      let lo := cs.takeWhile Char.isLower
      if lo = [] then none
      else
        let rest := cs.dropWhile Char.isLower
        let (chunks, rest2) := camelChunks rest.length rest
        let ws := rest2.takeWhile Char.isWhitespace
        if ws ≠ [] ∧ (match rest2.drop ws.length with
                      | '-' :: _ => true
                      | _ => false) = true then
          some (c :: (lo ++ chunks))
        else none
     else none).orElse (fun _ => namePattern2From (some c) cs)

/-- Check applied to an uploader candidate extracted from a model name. -/
def plainCandidateOk (seg : List Char) : Bool :=
  seg.length > 2 && !((String.mk seg).toLower ∈ ["the", "a", "an"])

/-- Name-heuristic fallback of `extract_uploader_from_model_id`: try the two
patterns in order, returning the first candidate that passes the check. -/
def nameHeuristicUploader (modelName : String) : String :=
  let try2 : String :=
    match namePattern2From none modelName.data with
    | some seg2 => if plainCandidateOk seg2 then String.mk seg2 else ""
    | none => ""
  match namePattern1 modelName.data with
  | some seg => if plainCandidateOk seg then String.mk seg else try2
  | none => try2

/-- Embedding of `QuantizationSelector.extract_uploader_from_model_id`:
canonical page link first, then the direct-download link (skipping CDN
links), then the name heuristics, else the empty string. -/
def extractUploaderFromModelId (m : Model) : String :=
  match (if m.huggingFaceLink ≠ "" then hfSearch m.huggingFaceLink.data else none) with
  | some seg => String.mk seg
  | none =>
    match (if m.directDownloadLink ≠ "" ∧
              ¬ containsSubstr m.directDownloadLink "cdn-lfs.huggingface.co" = true then
             hfSearch m.directDownloadLink.data
           else none) with
    | some seg => String.mk seg
    | none => nameHeuristicUploader m.modelName

/-- Embedding of `is_trusted_uploader` (case-insensitive membership). -/
def isTrustedUploader (cfg : FilterConfig) (m : Model) : Bool :=
  (cfg.trusted_uploaders.map String.toLower).contains (extractUploaderFromModelId m).toLower

/-- Embedding of `meets_download_threshold` with an explicit threshold (the
source's `None` default is always filled in by its callers). -/
def meetsDownloadThreshold (m : Model) (minDl : Int) : Except String Bool := do
  let d ← pyDlVal m.downloadCount
  return decide (d ≥ minDl)

/-- Embedding of `has_significant_size_drop`. -/
def hasSignificantSizeDrop (variant lastKept : Model) (threshold : ℚ) : Except String Bool :=
  if pyEqZero lastKept.fileSize then .ok true
  else do
    let c ← pySizeQ variant.fileSize
    let l ← pySizeQ lastKept.fileSize
    return decide (1 - c / l > threshold)

/-- The fixed quantization family table, in source (insertion) order. -/
def quantFamilies : List (String × List String) :=
  [("Q4", ["Q4_0", "Q4_1", "Q4_K_S", "Q4_K_M"]),
   ("Q5", ["Q5_0", "Q5_1", "Q5_K_S", "Q5_K_M"]),
   ("Q6", ["Q6_K"]),
   ("Q8", ["Q8_0"]),
   ("IQ", ["IQ1_S", "IQ2_XXS", "IQ3_XXS", "IQ4_XS"]),
   ("F16", ["F16", "BF16"]),
   ("Q2", ["Q2_K"]),
   ("Q3", ["Q3_K_S", "Q3_K_M", "Q3_K_L"])]

/-- Python `s.startswith(p)`. -/
def strStartsWith (s p : String) : Bool :=
  listStartsWith p.data s.data

/-- Embedding of `is_different_quantization_family`: unknown formats count
as different; otherwise different iff no kept variant's format falls in the
current variant's family. -/
def isDifferentQuantizationFamily (variant : Model) (kept : List Model) : Bool :=
  let current := variant.quantFormat.toUpper
  match quantFamilies.find? (fun fam => fam.2.any (fun fmt => strStartsWith current fmt)) with
  | none => true
  | some fam =>
    !(kept.map (fun v => v.quantFormat.toUpper)).any
      (fun kq => fam.2.any (fun fmt => strStartsWith kq fmt))

/-- Embedding of `should_keep_variant`, in source decision order: anchor,
trusted-uploader fast path, download threshold, size drop against the most
recently kept variant, family-diversity escape. -/
def shouldKeepVariant (cfg : FilterConfig) (variant : Model) (kept : List Model) :
    Except String Bool :=
  match kept.getLast? with
  | none => .ok true
  | some lastKept => do
    let trustedPass ←
      if isTrustedUploader cfg variant then meetsDownloadThreshold variant 50
      else pure false
    if trustedPass then
      return true
    else
      let meetsMin ← meetsDownloadThreshold variant cfg.min_downloads
      if !meetsMin then
        return false
      else
        let drop ← hasSignificantSizeDrop variant lastKept cfg.size_drop_threshold
        if drop then
          return true
        else
          if isDifferentQuantizationFamily variant kept then do
            let d ← pyDlVal variant.downloadCount
            if d ≥ cfg.min_downloads * 2 then return true else return false
          else
            return false

/-- The greedy accumulation loop of `filter_quantized_variants`. -/
def filterLoop (cfg : FilterConfig) : List Model → List Model → Except String (List Model)
  | [], kept => .ok kept
  | v :: vs, kept => do
    let keep ← shouldKeepVariant cfg v kept
    filterLoop cfg vs (if keep then kept ++ [v] else kept)

/-- Embedding of `filter_quantized_variants`. -/
def filterQuantizedVariants (cfg : FilterConfig) (variants : List Model) :
    Except String (List Model) :=
  if variants.isEmpty then .ok [] else filterLoop cfg variants []

/-- Stable descending insertion by file size. -/
def insertBySizeDesc (x : Model) : List Model → List Model
  | [] => [x]
  | y :: ys =>
    if msizeInt x ≥ msizeInt y then x :: y :: ys else y :: insertBySizeDesc x ys

/-- Python `list.sort(key=fileSize, reverse=True)`: stable descending sort.
The callers only sort lists whose sizes the size filter has already forced
numeric, which is why a total integer key is faithful here. -/
def sortBySizeDesc (l : List Model) : List Model :=
  l.foldr insertBySizeDesc []

/-- Monadic size filter of `select_variants_for_group` (`fileSize` of every
variant is compared against the minimum, left to right). -/
def filterSizeValid (cfg : FilterConfig) : List Model → Except String (List Model)
  | [] => .ok []
  | v :: vs => do
    let big ← pyGeInt v.fileSize cfg.min_size_bytes
    let rest ← filterSizeValid cfg vs
    return (if big then v :: rest else rest)

/-- Embedding of `select_variants_for_group`. -/
def selectVariantsForGroup (cfg : FilterConfig) (base : Option Model)
    (variants : List Model) : Except String (List Model) := do
  let selected := match base with | some b => [b] | none => []
  if variants.isEmpty then
    return selected
  else
    let validVariants ← filterSizeValid cfg variants
    if validVariants.isEmpty then
      return selected
    else
      let filtered ← filterQuantizedVariants cfg (sortBySizeDesc validVariants)
      return selected ++ filtered

/-- Rational value of a captured integer-dot-fraction digit group. -/
def qFromDigits (ds fs : List Char) : ℚ :=
  (digitsToNat ds : ℚ) +
    (if fs = [] then 0 else (digitsToNat fs : ℚ) / ((10 : ℚ) ^ fs.length))

/-- The `[Bb]` character class (all parameter patterns are case-insensitive). -/
def isBChar (c : Char) : Bool :=
  c = 'b' || c = 'B'

/-- Attempt `(\d+(?:\.\d+)?)[Bb]` at the current position, with `afterOk`
deciding the pattern's trailing context; returns the captured value. -/
def paramAttempt (afterOk : List Char → Bool) (cs : List Char) : Option ℚ :=
  let ds := cs.takeWhile Char.isDigit
  if ds = [] then none
  else
    let rest := cs.dropWhile Char.isDigit
    let withFrac : Option ℚ :=
      match rest with
      | '.' :: r2 =>
        let fs := r2.takeWhile Char.isDigit
        if fs = [] then none
        else
          match r2.dropWhile Char.isDigit with
          | b :: r3 => if isBChar b && afterOk r3 then some (qFromDigits ds fs) else none
          | [] => none
      | _ => none
    match withFrac with
    | some q => some q
    | none =>
      match rest with
      | b :: r3 => if isBChar b && afterOk r3 then some (qFromDigits ds []) else none
      | [] => none

/-- Leftmost search for one parameter pattern: `leadChar` is the literal the
pattern requires right before the digit group (`-` or `_`), if any. -/
def paramScan (leadChar : Option Char) (afterOk : List Char → Bool) :
    List Char → Option ℚ
  | [] => none
  | c :: cs =>
    (match leadChar with
     | some pc => if c = pc then paramAttempt afterOk cs else none
     | none => paramAttempt afterOk (c :: cs)) <|>
    paramScan leadChar afterOk cs

/-- Trailing context `(?:\s|$|-)` of the first parameter pattern. -/
def afterWsEndDash : List Char → Bool
  | [] => true
  | c :: _ => c.isWhitespace || c = '-'

/-- Trailing context `-` (second and third parameter patterns). -/
def afterDash : List Char → Bool
  | '-' :: _ => true
  | _ => false

/-- Trailing context `_` (fourth parameter pattern). -/
def afterUnderscore : List Char → Bool
  | '_' :: _ => true
  | _ => false

/-- Embedding of `estimate_parameters`: the four name regexes in order, then
the file-size heuristic (1.5 GB per billion parameters, only trusted above
half a billion).  Python `int()` truncation is `Int.floor` on these
non-negative values. -/
def estimate_parameters (m : Model) : Option Int :=
  let cs := m.modelName.data
  let fromName : Option ℚ :=
    paramScan none afterWsEndDash cs <|>
    paramScan none afterDash cs <|>
    paramScan (some '-') afterDash cs <|>
    paramScan (some '_') afterUnderscore cs
  match fromName with
  | some q => some (Int.floor (q * 1000000000))
  | none =>
    match m.fileSize with
    | .vint n =>
      if n > 0 then
        let estB : ℚ := (n : ℚ) / ((3 : ℚ) / 2 * 1024 ^ 3)
        if estB > 1 / 2 then some (Int.floor (estB * 1000000000)) else none
      else none
    | _ => none

/-- Embedding of `_is_efficient_quantization`. -/
def isEfficientQuantization (quantFormat : String) : Bool :=
  if quantFormat = "" then false
  else
    ["Q4_", "Q3_", "Q2_", "IQ4_", "IQ3_", "IQ2_"].any
      (fun f => strStartsWith quantFormat.toUpper f)

/-- Embedding of `calculate_ram_requirements`: multiplier, efficient-format
reduction, then the fixed market-bucket ladder. -/
def calculate_ram_requirements (cfg : FilterConfig) (fileSize : Int)
    (quantFormat : String) : Int :=
  if fileSize ≤ 0 then 8
  else
    let fsGB : ℚ := (fileSize : ℚ) / 1024 ^ 3
    let baseRam := fsGB * cfg.ram_multiplier
    let baseRam :=
      if isEfficientQuantization quantFormat then
        baseRam * (1 - cfg.quantization_ram_reduction)
      else baseRam
    if baseRam ≤ 8 then 8
    else if baseRam ≤ 16 then 16
    else if baseRam ≤ 32 then 32
    else if baseRam ≤ 64 then 64
    else 128

/-- Embedding of `calculate_cpu_requirements`: parameter-count ladder when an
estimate exists, file-size ladder otherwise. -/
def calculate_cpu_requirements (cfg : FilterConfig) (estimatedParams : Option Int)
    (fileSize : Int) : Int :=
  match estimatedParams with
  | some p =>
    if p ≤ cfg.small_model_threshold then 4
    else if p ≤ cfg.medium_model_threshold then 6
    else if p ≤ 30000000000 then 8
    else if p ≤ 70000000000 then 12
    else 16
  | none =>
    let fsGB : ℚ := (fileSize : ℚ) / 1024 ^ 3
    if fsGB ≤ 2 then 4
    else if fsGB ≤ 6 then 6
    else if fsGB ≤ 15 then 8
    else if fsGB ≤ 40 then 12
    else 16

/-- Embedding of `determine_gpu_requirement`. -/
def determine_gpu_requirement (cfg : FilterConfig) (estimatedParams : Option Int)
    (fileSize : Int) (quantFormat : String) : Bool :=
  if (match estimatedParams with
      | some p => decide (p ≥ cfg.gpu_required_threshold)
      | none => false) then true
  else
    let fsGB : ℚ := (fileSize : ℚ) / 1024 ^ 3
    if fsGB ≥ 8 then true
    else if isEfficientQuantization quantFormat ∧ fsGB ≤ 4 then false
    else true

/-- Embedding of `_apply_default_requirements`: the total fallback. -/
def apply_default_requirements (cfg : FilterConfig) (m : Model) : Model :=
  let fsGB : ℚ :=
    match m.fileSize with
    | .vint n => if n > 0 then max 1 ((n : ℚ) / 1024 ^ 3) else 1
    | _ => 1
  let baseRam := fsGB * 3
  { m with
    minRamGB := some (if baseRam ≤ 8 then 8
                      else if baseRam ≤ 16 then 16
                      else if baseRam ≤ 32 then 32
                      else 64),
    minCpuCores := some 8,
    gpuRequired := some true,
    osSupported := some cfg.default_os_support }

/-- Embedding of `calculate_requirements`: validation of the size field,
estimation, and the four hardware fields, falling back to the defaults on
the paths where the Python body raises (non-numeric or negative size). -/
def calculate_requirements (cfg : FilterConfig) (m : Model) : Model :=
  match m.fileSize with
  | .vint n =>
    if n < 0 then apply_default_requirements cfg m
    else
      let params := estimate_parameters m
      { m with
        minRamGB := some (calculate_ram_requirements cfg n m.quantFormat),
        minCpuCores := some (calculate_cpu_requirements cfg params n),
        gpuRequired := some (determine_gpu_requirement cfg params n m.quantFormat),
        osSupported := some cfg.default_os_support }
  | _ => apply_default_requirements cfg m

/-- Per-group before/after statistics recorded by `add_group_stats`. -/
structure GroupStat where
  original : Int
  kept : Int
  removed : Int
deriving DecidableEq, Repr

/-- Embedding of the mutable `ProcessingReport` dataclass. -/
structure ProcessingReport where
  total_processed : Int := 0
  total_kept : Int := 0
  total_removed : Int := 0
  small_models_removed : Int := 0
  finetuned_removed : Int := 0
  quantization_variants_removed : Int := 0
  variants_removed_by_size : Int := 0
  variants_removed_by_uploader : Int := 0
  variants_removed_by_downloads : Int := 0
  base_models_kept : Int := 0
  quantized_variants_kept : Int := 0
  trusted_uploader_variants_kept : Int := 0
  size_reduction_mb : Int := 0
  processing_time_seconds : ℚ := 0
  model_group_stats : List (String × GroupStat) := []
  errors : List String := []
deriving DecidableEq, Repr

/-- Python dict assignment `model_group_stats[name] = stat`: overwrite in
place if the key exists, append otherwise. -/
def statsUpdate (stats : List (String × GroupStat)) (name : String) (st : GroupStat) :
    List (String × GroupStat) :=
  match stats with
  | [] => [(name, st)]
  | (k, v) :: rest =>
    if k = name then (k, st) :: rest else (k, v) :: statsUpdate rest name st

/-- Embedding of the `FilterResult` dataclass. -/
structure FilterResult where
  filtered_models : List Model
  original_count : Int
  filtered_count : Int
  removed_count : Int
  backup_path : Option String
  processing_report : ProcessingReport
  errors : List String
deriving DecidableEq, Repr

/-- Embedding of the `FilterResult.success` property. -/
def FilterResult.success (r : FilterResult) : Bool :=
  r.errors.isEmpty && decide (0 < r.filtered_count)

/-- Python `str.capitalize()`: first character uppercased, rest lowercased. -/
def capitalizePy (s : String) : String :=
  match s.data with
  | [] => ""
  | c :: cs => String.mk (c.toUpper :: cs.map Char.toLower)

/-- Match for `re.sub(r'-gguf', '', name, flags=IGNORECASE)`. -/
def matchDashGgufLen (cs : List Char) : Option Nat :=
  if (cs.take 5).map Char.toLower = "-gguf".data then some 5 else none

/-- Match for `re.sub(r'-q\d+_\w+', '', name, flags=IGNORECASE)`. -/
def matchDashQuantLen (cs : List Char) : Option Nat :=
  match cs with
  | '-' :: q :: rest =>
    if q.toLower = 'q' then
      let ds := rest.takeWhile Char.isDigit
      if ds = [] then none
      else
        match rest.dropWhile Char.isDigit with
        | '_' :: r2 =>
          let ws := r2.takeWhile isWordChar
          if ws = [] then none else some (2 + ds.length + 1 + ws.length)
        | _ => none
    else none
  | _ => none

/-- Python `re.split(r'[-_]', s)` (keeps empty fields). -/
def splitDashUnderscore : List Char → List (List Char)
  | [] => [[]]
  | c :: cs =>
    let r := splitDashUnderscore cs
    if c = '-' ∨ c = '_' then [] :: r
    else
      match r with
      | w :: ws => (c :: w) :: ws
      | [] => [[c]]

/-- Embedding of `_extract_model_name` (the source's `filename` parameter is
unused in its body). -/
def extractModelName (modelId _filename : String) : String :=
  let name :=
    if containsSubstr modelId "/" then
      ((modelId.splitOn "/").getLast?).getD modelId
    else modelId
  let cs := name.data
  let cs := scanRemoveB (fun _ rest => matchDashGgufLen rest) cs.length none cs
  let cs := scanRemoveB (fun _ rest => matchDashQuantLen rest) cs.length none cs
  String.intercalate " " ((splitDashUnderscore cs).map (fun w => capitalizePy (String.mk w)))

/-- Quantization tag patterns of `_extract_quantization_format`, in source
order (substring search over the lowercased filename). -/
def quantTagPatterns : List (String × String) :=
  [("bf16", "BF16"), ("f16", "F16"),
   ("q8_0", "Q8_0"), ("q6_k", "Q6_K"), ("q5_k_m", "Q5_K_M"),
   ("q5_k_s", "Q5_K_S"), ("q5_0", "Q5_0"), ("q5_1", "Q5_1"),
   ("q4_k_m", "Q4_K_M"), ("q4_k_s", "Q4_K_S"), ("q4_0", "Q4_0"),
   ("q4_1", "Q4_1"), ("q3_k_m", "Q3_K_M"), ("q3_k_s", "Q3_K_S"),
   ("q3_k_l", "Q3_K_L"), ("q2_k", "Q2_K"), ("iq4_xs", "IQ4_XS"),
   ("iq3_xxs", "IQ3_XXS"), ("iq2_xxs", "IQ2_XXS"), ("iq1_s", "IQ1_S")]

/-- Embedding of `_extract_quantization_format`. -/
def extractQuantizationFormat (filename : String) : String :=
  let fl := filename.toLower
  ((quantTagPatterns.find? (fun pr => containsSubstr fl pr.1)).map Prod.snd).getD "Unknown"

/-- Architecture patterns of `_extract_model_type`, in source order. -/
def modelTypePatterns : List (String × String) :=
  [("llama", "Llama"), ("mistral", "Mistral"), ("qwen", "Qwen"),
   ("gemma", "Gemma"), ("deepseek", "DeepSeek"), ("phi", "Phi"),
   ("falcon", "Falcon"), ("mpt", "MPT"), ("bert", "BERT"),
   ("embed", "BERT")]

/-- Embedding of `_extract_model_type` (word-bounded search over the
lowercased id-plus-filename text). -/
def extractModelType (modelId filename : String) : String :=
  let text := (modelId ++ " " ++ filename).toLower
  ((modelTypePatterns.find? (fun pr => wordSearch pr.1 text)).map Prod.snd).getD "Unknown"

/-- Round to nearest with ties to even, as Python float formatting does on
the exact values arising here. -/
def roundHalfEven (q : ℚ) : Int :=
  let f := ⌊q⌋
  let r := q - f
  if r < 1 / 2 then f
  else if r > 1 / 2 then f + 1
  else if f % 2 = 0 then f else f + 1

/-- Fixed-point formatting with one decimal digit (for non-negative values). -/
def fmtFixed1 (q : ℚ) : String :=
  let t := roundHalfEven (q * 10)
  toString (t / 10) ++ "." ++ toString (t % 10)

/-- Fixed-point formatting with no decimal digit (for non-negative values). -/
def fmtFixed0 (q : ℚ) : String :=
  toString (roundHalfEven q)

/-- Embedding of `_format_file_size` on a numeric size. -/
def formatFileSize (sizeBytes : Int) : String :=
  if sizeBytes < 1024 then toString sizeBytes ++ " B"
  else if sizeBytes < 1024 * 1024 then fmtFixed1 ((sizeBytes : ℚ) / 1024) ++ " KB"
  else if sizeBytes < 1024 * 1024 * 1024 then
    fmtFixed0 ((sizeBytes : ℚ) / (1024 * 1024)) ++ " MB"
  else fmtFixed1 ((sizeBytes : ℚ) / (1024 * 1024 * 1024)) ++ " GB"

/-- Embedding of `_has_gguf_files`. -/
def hasGgufFiles (r : RawModel) : Bool :=
  r.siblings.any (fun s => s.rfilename.toLower.endsWith ".gguf")

/-- Embedding of `_get_gguf_files`. -/
def getGgufFiles (r : RawModel) : List Sibling :=
  r.siblings.filter (fun s => s.rfilename.toLower.endsWith ".gguf")

/-- Embedding of `_convert_to_expected_format`: `none` exactly when the
Python body raises internally (a non-numeric sibling size makes
`_format_file_size` raise, which the function catches and maps to `None`). -/
def convertToExpectedFormat (r : RawModel) (g : Sibling) : Option Model :=
  match g.size with
  | .vint n =>
    some
      { modelName := extractModelName r.id g.rfilename
        quantFormat := extractQuantizationFormat g.rfilename
        fileSize := .vint n
        fileSizeFormatted := formatFileSize n
        modelType := extractModelType r.id g.rfilename
        license := "Not specified"
        downloadCount := r.downloads
        likeCount := r.likes
        huggingFaceLink := "https://huggingface.co/" ++ r.id
        directDownloadLink := "https://huggingface.co/" ++ r.id ++ "/resolve/main/" ++ g.rfilename
        uploadDate := r.created_at }
  | _ => none

/-- Embedding of `_extract_gguf_models` (entries whose conversion returned
`None` are skipped silently). -/
def extractGgufModels (raw : List RawModel) : List Model :=
  raw.foldr
    (fun r acc =>
      if hasGgufFiles r then
        ((getGgufFiles r).filterMap (convertToExpectedFormat r)) ++ acc
      else acc)
    []

/-- Embedding of `_remove_small_models`, accumulating the kept list and the
removal counter left to right so that an error carries the partial count,
exactly as the Python loop leaves the report when a comparison raises. -/
def removeSmallLoop (cfg : FilterConfig) :
    List Model → List Model → Nat → Except (String × Nat) (List Model × Nat)
  | [], kept, cnt => .ok (kept, cnt)
  | m :: ms, kept, cnt =>
    match pyGeInt m.fileSize cfg.min_size_bytes with
    | .error e => .error (e, cnt)
    | .ok true => removeSmallLoop cfg ms (kept ++ [m]) cnt
    | .ok false => removeSmallLoop cfg ms kept (cnt + 1)

/-- Embedding of `_remove_finetuned_models`: kept base models and the count
of removed fine-tuned entries. -/
def removeFinetunedModels (cfg : FilterConfig) (models : List Model) :
    List Model × Nat :=
  (models.filter (fun m => is_base_model cfg m),
   (models.filter (fun m => !is_base_model cfg m)).length)

/-- Insertion-ordered grouping step (`defaultdict(list)` append). -/
def groupInsert (key : String) (m : Model) :
    List (String × List Model) → List (String × List Model)
  | [] => [(key, [m])]
  | (k, ms) :: rest =>
    if k = key then (k, ms ++ [m]) :: rest else (k, ms) :: groupInsert key m rest

/-- Embedding of `_group_models_by_base`. -/
def groupModelsByBase (cfg : FilterConfig) (models : List Model) :
    List (String × List Model) :=
  models.foldl (fun acc m => groupInsert (getBaseModelGroup cfg m) m acc) []

/-- Base/variant split of `_filter_variants_in_groups`: full-precision tags
or a literal `base` in the name route an entry to the base candidates. -/
def splitBaseVariants : List Model → List Model × List Model
  | [] => ([], [])
  | m :: ms =>
    let (bs, vs) := splitBaseVariants ms
    if m.quantFormat.toUpper = "F16" ∨ m.quantFormat.toUpper = "BF16" ∨
        containsSubstr m.modelName.toLower "base" = true then
      (m :: bs, vs)
    else (bs, m :: vs)

/-- Python `max(models, key=fileSize)`: first maximum wins; mixed-type size
values make the comparison raise. -/
def pyMaxBySize : Model → List Model → Except String Model
  | best, [] => .ok best
  | best, x :: xs => do
    let gt ← pyGtVal x.fileSize best.fileSize
    pyMaxBySize (if gt then x else best) xs

/-- One group of `_filter_variants_in_groups`: threading the accumulated
final list and report, with errors carrying the report at the failure
point. -/
def processGroup (cfg : FilterConfig) (acc : List Model × ProcessingReport)
    (g : String × List Model) : Except (String × ProcessingReport) (List Model × ProcessingReport) :=
  let finalModels := acc.1
  let report := acc.2
  let originalCount : Int := g.2.length
  let (baseModels, variants) := splitBaseVariants g.2
  match (match baseModels with
         | [] => Except.ok none
         | b :: bs => (pyMaxBySize b bs).map some) with
  | .error e => .error (e, report)
  | .ok baseModel =>
    let report :=
      match baseModel with
      | some _ => { report with base_models_kept := report.base_models_kept + 1 }
      | none => report
    match (if variants.isEmpty then Except.ok []
           else selectVariantsForGroup cfg none variants) with
    | .error e => .error (e, report)
    | .ok selectedVariants =>
      let (finalModels, report) :=
        if variants.isEmpty then (finalModels, report)
        else
          (finalModels ++ selectedVariants,
           { report with
             quantized_variants_kept :=
               report.quantized_variants_kept + selectedVariants.length,
             quantization_variants_removed :=
               report.quantization_variants_removed +
                 ((variants.length : Int) - selectedVariants.length),
             trusted_uploader_variants_kept :=
               report.trusted_uploader_variants_kept +
                 (selectedVariants.filter (fun v => isTrustedUploader cfg v)).length })
      let finalModels :=
        match baseModel with
        | some b => finalModels ++ [b]
        | none => finalModels
      let keptCount : Int :=
        (match baseModel with | some _ => 1 | none => 0) + selectedVariants.length
      let report :=
        { report with
          model_group_stats :=
            statsUpdate report.model_group_stats g.1
              ⟨originalCount, keptCount, originalCount - keptCount⟩ }
      .ok (finalModels, report)

/-- Fold of `processGroup` over the groups, in insertion order. -/
def filterVariantsInGroups (cfg : FilterConfig) (groups : List (String × List Model))
    (report : ProcessingReport) : Except (String × ProcessingReport) (List Model × ProcessingReport) :=
  groups.foldlM (fun acc g => processGroup cfg acc g) ([], report)

/-- Embedding of `_add_hardware_requirements`: `calculate_requirements` is
total, so the per-model exception fallback of the Python loop never fires. -/
def addHardwareRequirements (cfg : FilterConfig) (models : List Model) : List Model :=
  models.map (fun m => calculate_requirements cfg m)

/-- Stages 1-6 of `filter_models`, with the top-level `except` branch's view
(message, report at failure, errors so far) as the error type.  The
non-fatal error strings of stage 1 are always empty in the embedding
because every representable per-item failure is caught inside
`_convert_to_expected_format` itself. -/
def pipelineCore (cfg : FilterConfig) (raw : List RawModel) :
    Except (String × ProcessingReport × List String)
      (List Model × Nat × ProcessingReport × List String) :=
  let gguf := extractGgufModels raw
  let errs : List String := []
  let report : ProcessingReport := { total_processed := (gguf.length : Int) }
  match removeSmallLoop cfg gguf [] 0 with
  | .error (e, cnt) =>
    .error (e, { report with small_models_removed := (cnt : Int) }, errs)
  | .ok (bigModels, smallRemoved) =>
    let report := { report with small_models_removed := (smallRemoved : Int) }
    let (baseModels, ftRemoved) := removeFinetunedModels cfg bigModels
    let report := { report with finetuned_removed := (ftRemoved : Int) }
    let groups := groupModelsByBase cfg baseModels
    match filterVariantsInGroups cfg groups report with
    | .error (e, report) => .error (e, report, errs)
    | .ok (finalModels, report) =>
      let enhanced := addHardwareRequirements cfg finalModels
      let report := { report with total_kept := (enhanced.length : Int) }
      let report :=
        { report with total_removed := report.total_processed - report.total_kept }
      .ok (enhanced, gguf.length, report, errs)

/-- Embedding of `SpamFilterEngine.filter_models`.  `elapsed` stands for the
wall-clock duration `time.time() - start_time`, the only
environment-dependent input of the pipeline. -/
def filterModels (cfg : FilterConfig) (elapsed : ℚ) (raw : List RawModel) : FilterResult :=
  match pipelineCore cfg raw with
  | .ok (enhanced, ggufCount, report, errs) =>
    let report := { report with processing_time_seconds := elapsed }
    { filtered_models := enhanced
      original_count := (ggufCount : Int)
      filtered_count := (enhanced.length : Int)
      removed_count := (ggufCount : Int) - (enhanced.length : Int)
      backup_path := none
      processing_report := report
      errors := errs }
  | .error (e, report, errs) =>
    { filtered_models := []
      original_count := report.total_processed
      filtered_count := 0
      removed_count := report.total_processed
      backup_path := none
      processing_report := report
      errors := errs ++ ["Filtering failed: " ++ e] }

/-- All four Hardware Profile fields are present on an entry. -/
def hwComplete (m : Model) : Bool :=
  m.minRamGB.isSome && m.minCpuCores.isSome && m.gpuRequired.isSome && m.osSupported.isSome

/-- Strict size-descending order between adjacent entries. -/
def sizeGT (x y : Model) : Prop :=
  msizeInt y < msizeInt x

/-- One admissible step between consecutive kept variants: the next one was
admitted by the trusted-uploader fast path, by a qualifying size drop
against the most recently kept variant, or by the family-diversity escape
relative to everything kept before it. -/
def pairOk (cfg : FilterConfig) (prev next : Model) (keptBefore : List Model) : Prop :=
  (isTrustedUploader cfg next = true ∧ dlInt next ≥ 50)
  ∨ 1 - msizeQ next / msizeQ prev > cfg.size_drop_threshold
  ∨ (isDifferentQuantizationFamily next keptBefore = true ∧
      dlInt next ≥ cfg.min_downloads * 2)

/-- Every consecutive pair of the list satisfies `pairOk`, where the
`keptBefore` context of each pair is the absolute prefix `pre` extended by
the elements already passed. -/
def pairsOkFrom (cfg : FilterConfig) : List Model → List Model → Prop
  | pre, a :: b :: rest =>
    pairOk cfg a b (pre ++ [a]) ∧ pairsOkFrom cfg (pre ++ [a]) (b :: rest)
  | _, [] => True
  | _, [_] => True

/-- Builder for hand-made GGUF file entries used in concrete scenarios. -/
def mkEntry (name quant : String) (szMB dl : Int) (hf : String) : Model :=
  { modelName := name
    quantFormat := quant
    fileSize := .vint (szMB * 1048576)
    fileSizeFormatted := toString szMB ++ " MB"
    modelType := "Unknown"
    license := "Not specified"
    downloadCount := .vint dl
    likeCount := 0
    huggingFaceLink := hf
    directDownloadLink := ""
    uploadDate := none }

/-- Configuration of the variant-selection scenario: `min_downloads = 100`,
`size_drop_threshold = 0.05`, and a minimum size small enough (1 MB) that
the 60 MB variant reaches the selection logic at all. -/
def c1cfg : FilterConfig := { min_size_bytes := 1048576 }

/-- The 500 MB base file tagged F16 of the scenario group. -/
def c1f16 : Model := mkEntry "testmodel" "F16" 500 1000 "https://huggingface.co/RandomOne/m"

/-- The 300 MB Q8_0 variant (untrusted uploader, 40 downloads). -/
def c1q8 : Model := mkEntry "testmodel" "Q8_0" 300 40 "https://huggingface.co/RandomOne/m"

/-- The 120 MB Q4_K_M variant (trusted uploader, 60 downloads). -/
def c1q4 : Model := mkEntry "testmodel" "Q4_K_M" 120 60 "https://huggingface.co/TheBloke/m"

/-- The 60 MB Q2_K variant (untrusted uploader, 500 downloads). -/
def c1q2 : Model := mkEntry "testmodel" "Q2_K" 60 500 "https://huggingface.co/RandomOne/m"

/-- Quantization tags of the entries kept by the per-group selection stage on
the scenario group, in output order. -/
def c1kept : List String :=
  match filterVariantsInGroups c1cfg [("testmodel", [c1f16, c1q8, c1q4, c1q2])] {} with
  | .ok (ms, _) => ms.map (fun m => m.quantFormat)
  | .error _ => []

/-- Invalid configuration: `size_drop_threshold = 2` fails validation. -/
def badCfg : FilterConfig := { size_drop_threshold := 2 }

/-- A well-formed one-record raw batch whose single GGUF file survives the
whole pipeline. -/
def sampleRaw : List RawModel :=
  [{ id := "someorg/coolnet-7b-gguf"
     siblings := [{ rfilename := "coolnet-7b.q4_k_m.gguf", size := .vint 209715200 }]
     downloads := .vint 500
     likes := 3
     created_at := none }]

/-- Two equal-size (200 MB) variants from a trusted uploader with enough
downloads for the trusted fast path. -/
def c5a : Model := mkEntry "alpha" "Q4_K_M" 200 100 "https://huggingface.co/TheBloke/a"

/-- Second equal-size trusted variant, evaluated after `c5a`. -/
def c5b : Model := mkEntry "beta" "Q5_K_M" 200 100 "https://huggingface.co/TheBloke/b"

/-- A strictly size-descending two-variant input (300 MB then 100 MB, both
untrusted with 500 downloads). -/
def c5w1 : Model := mkEntry "gammaone" "Q8_0" 300 500 "https://huggingface.co/OtherOne/c"

/-- The smaller variant of the strictly descending witness input. -/
def c5w2 : Model := mkEntry "gammatwo" "Q4_K_M" 100 500 "https://huggingface.co/OtherOne/d"

/-- Entry whose name triggers only the CodeLlama special rule: no vocabulary
pattern, heuristic indicator, base pattern or base indicator matches it. -/
def c4bad : Model := mkEntry "codellama-instructions" "Unknown" 200 0 ""

/-- Entry matching no fine-tune signal and no base signal at all. -/
def c4good : Model := mkEntry "xyzzy" "Unknown" 200 0 ""

/-- Raw batch whose record carries a string `downloads` value and two GGUF
files of the same group, so that the download-threshold comparison in the
variant-selection stage raises a `TypeError` that reaches the top-level
handler of `filter_models`. -/
def c6raw : List RawModel :=
  [{ id := "randomx/mymodel-7b-gguf"
     siblings := [{ rfilename := "mymodel-7b.q4_k_m.gguf", size := .vint 209715200 },
                  { rfilename := "mymodel-7b.q5_k_m.gguf", size := .vint 157286400 }]
     downloads := .vstr "many"
     likes := 0
     created_at := none }]

/-- C7: for every configuration, file size, quantization format, and
parameter estimate, `calculate_ram_requirements` returns a value in
{8, 16, 32, 64, 128} and `calculate_cpu_requirements` a value in
{4, 6, 8, 12, 16}. -/
theorem spec_c7_hardware_requirement_buckets (cfg : FilterConfig) (fs : Int)
    (q : String) (p : Option Int) :
    calculate_ram_requirements cfg fs q ∈ ([8, 16, 32, 64, 128] : List Int) ∧
    calculate_cpu_requirements cfg p fs ∈ ([4, 6, 8, 12, 16] : List Int) := by
  constructor
  · unfold calculate_ram_requirements
    dsimp only
    split_ifs <;> simp
  · unfold calculate_cpu_requirements
    cases p with
    | none =>
      dsimp only
      split_ifs <;> simp
    | some v =>
      dsimp only
      split_ifs <;> simp

/-- C8: running the pipeline on an empty input batch yields an empty output
batch, an empty error list, and a report with every counter at zero and no
per-group statistics. -/
theorem spec_c8_empty_batch (cfg : FilterConfig) (t : ℚ) :
    (filterModels cfg t []).filtered_models = [] ∧
    (filterModels cfg t []).errors = [] ∧
    (filterModels cfg t []).processing_report.total_processed = 0 ∧
    (filterModels cfg t []).processing_report.total_kept = 0 ∧
    (filterModels cfg t []).processing_report.total_removed = 0 ∧
    (filterModels cfg t []).processing_report.small_models_removed = 0 ∧
    (filterModels cfg t []).processing_report.finetuned_removed = 0 ∧
    (filterModels cfg t []).processing_report.quantization_variants_removed = 0 ∧
    (filterModels cfg t []).processing_report.variants_removed_by_size = 0 ∧
    (filterModels cfg t []).processing_report.variants_removed_by_uploader = 0 ∧
    (filterModels cfg t []).processing_report.variants_removed_by_downloads = 0 ∧
    (filterModels cfg t []).processing_report.base_models_kept = 0 ∧
    (filterModels cfg t []).processing_report.quantized_variants_kept = 0 ∧
    (filterModels cfg t []).processing_report.trusted_uploader_variants_kept = 0 ∧
    (filterModels cfg t []).processing_report.size_reduction_mb = 0 ∧
    (filterModels cfg t []).processing_report.model_group_stats = [] ∧
    (filterModels cfg t []).processing_report.errors = [] :=
  ⟨rfl, rfl, rfl, rfl, rfl, rfl, rfl, rfl, rfl, rfl, rfl, rfl, rfl, rfl, rfl, rfl, rfl⟩

/-- C9: two runs of the pipeline on the same batch with the same
configuration agree on the output entries, the error list, every report
counter, and the per-group statistics (the wall-clock duration is the only
input that may differ between runs). -/
theorem spec_c9_deterministic (cfg : FilterConfig) (t1 t2 : ℚ) (raw : List RawModel) :
    (filterModels cfg t1 raw).filtered_models = (filterModels cfg t2 raw).filtered_models ∧
    (filterModels cfg t1 raw).errors = (filterModels cfg t2 raw).errors ∧
    (filterModels cfg t1 raw).processing_report.total_processed =
      (filterModels cfg t2 raw).processing_report.total_processed ∧
    (filterModels cfg t1 raw).processing_report.total_kept =
      (filterModels cfg t2 raw).processing_report.total_kept ∧
    (filterModels cfg t1 raw).processing_report.total_removed =
      (filterModels cfg t2 raw).processing_report.total_removed ∧
    (filterModels cfg t1 raw).processing_report.small_models_removed =
      (filterModels cfg t2 raw).processing_report.small_models_removed ∧
    (filterModels cfg t1 raw).processing_report.finetuned_removed =
      (filterModels cfg t2 raw).processing_report.finetuned_removed ∧
    (filterModels cfg t1 raw).processing_report.quantization_variants_removed =
      (filterModels cfg t2 raw).processing_report.quantization_variants_removed ∧
    (filterModels cfg t1 raw).processing_report.base_models_kept =
      (filterModels cfg t2 raw).processing_report.base_models_kept ∧
    (filterModels cfg t1 raw).processing_report.quantized_variants_kept =
      (filterModels cfg t2 raw).processing_report.quantized_variants_kept ∧
    (filterModels cfg t1 raw).processing_report.trusted_uploader_variants_kept =
      (filterModels cfg t2 raw).processing_report.trusted_uploader_variants_kept ∧
    (filterModels cfg t1 raw).processing_report.model_group_stats =
      (filterModels cfg t2 raw).processing_report.model_group_stats ∧
    (filterModels cfg t1 raw).processing_report.errors =
      (filterModels cfg t2 raw).processing_report.errors := by
  cases h : pipelineCore cfg raw with
  | ok x =>
    obtain ⟨ms, k, rep, errs⟩ := x
    simp [filterModels, h]
  | error x =>
    obtain ⟨e, rep, errs⟩ := x
    simp [filterModels, h]

/-- C10: the result's success flag is true exactly when the error list is
empty and at least one entry was kept; in particular a run on the empty
batch reports failure. -/
theorem spec_c10_success_flag (cfg : FilterConfig) (t : ℚ) (raw : List RawModel) :
    ((filterModels cfg t raw).success = true ↔
      ((filterModels cfg t raw).errors = [] ∧ (filterModels cfg t raw).filtered_models ≠ [])) ∧
    (filterModels cfg t []).success = false := by
  constructor
  · cases h : pipelineCore cfg raw with
    | ok x =>
      obtain ⟨ms, k, rep, errs⟩ := x
      simp [filterModels, h, FilterResult.success, List.isEmpty_iff,
        Int.natCast_pos, List.length_pos]
    | error x =>
      obtain ⟨e, rep, errs⟩ := x
      simp [filterModels, h, FilterResult.success, List.isEmpty_iff]
  · rfl

theorem hwComplete_calculate (cfg : FilterConfig) (m : Model) :
    hwComplete (calculate_requirements cfg m) = true := by
  cases hm : m.fileSize with
  | vint n =>
    by_cases hn : n < 0 <;>
      simp [calculate_requirements, apply_default_requirements, hwComplete, hm, hn]
  | vstr s => simp [calculate_requirements, apply_default_requirements, hwComplete, hm]
  | vnone => simp [calculate_requirements, apply_default_requirements, hwComplete, hm]

theorem pipelineCore_ok_models (cfg : FilterConfig) (raw : List RawModel)
    (ms : List Model) (k : Nat) (rep : ProcessingReport) (errs : List String)
    (h : pipelineCore cfg raw = .ok (ms, k, rep, errs)) :
    ∃ l, ms = addHardwareRequirements cfg l := by
  unfold pipelineCore at h
  dsimp only at h
  split at h
  · simp at h
  · split at h
    · simp at h
    · simp only [Except.ok.injEq, Prod.mk.injEq] at h
      exact ⟨_, h.1.symm⟩

/-- C3: `calculate_requirements` is total and always attaches all four
Hardware Profile fields (falling back to the defaults on the paths where
the source raises internally), and consequently every entry of the
pipeline's final output carries all four fields. -/
theorem spec_c3_hardware_fields_always_present (cfg : FilterConfig) (m : Model)
    (t : ℚ) (raw : List RawModel) :
    hwComplete (calculate_requirements cfg m) = true ∧
    (filterModels cfg t raw).filtered_models.all hwComplete = true := by
  refine ⟨hwComplete_calculate cfg m, ?_⟩
  cases h : pipelineCore cfg raw with
  | ok x =>
    obtain ⟨ms, k, rep, errs⟩ := x
    obtain ⟨l, hl⟩ := pipelineCore_ok_models cfg raw ms k rep errs h
    subst hl
    simp only [filterModels, h, addHardwareRequirements, List.all_eq_true, List.mem_map]
    rintro b ⟨a, _, rfl⟩
    exact hwComplete_calculate cfg a
  | error x =>
    obtain ⟨e, rep, errs⟩ := x
    simp [filterModels, h]

/-- C6: whenever the pipeline body signals an unexpected error, the
top-level entry point returns a failed result with zero output entries and
the accumulated error messages, instead of propagating the exception. -/
theorem spec_c6_fatal_errors_caught (cfg : FilterConfig) (t : ℚ) (raw : List RawModel)
    (e : String) (rep : ProcessingReport) (errs : List String)
    (h : pipelineCore cfg raw = .error (e, rep, errs)) :
    (filterModels cfg t raw).filtered_models = [] ∧
    (filterModels cfg t raw).filtered_count = 0 ∧
    (filterModels cfg t raw).errors = errs ++ ["Filtering failed: " ++ e] := by
  simp [filterModels, h]

/-- C6 witness: a raw batch with a string `downloads` value makes the
download-threshold comparison of the selection stage fail, and the run
indeed surfaces a failed result with zero entries and the error message. -/
theorem spec_c6_fatal_errors_caught_witness :
    (filterModels defaultConfig 0 c6raw).filtered_models = [] ∧
    (filterModels defaultConfig 0 c6raw).filtered_count = 0 ∧
    (filterModels defaultConfig 0 c6raw).errors =
      [] ++ ["Filtering failed: " ++ "TypeError: comparison of str and int not supported"] :=
  spec_c6_fatal_errors_caught defaultConfig 0 c6raw
    "TypeError: comparison of str and int not supported" { total_processed := 2 } []
    (by with_unfolding_all rfl)

/-- C2 counterexample: with `size_drop_threshold = 2` the configuration
fails validation, yet `filter_models` still executes the filtering stages
(it keeps an entry) and surfaces no validation message — the engine itself
never refuses to run. -/
theorem spec_c2_counterexample :
    badCfg.validate = ["size_drop_threshold must be between 0 and 1"] ∧
    (filterModels badCfg 0 sampleRaw).filtered_models.length = 1 ∧
    (filterModels badCfg 0 sampleRaw).errors = [] := by
  refine ⟨by with_unfolding_all rfl, by with_unfolding_all rfl, by with_unfolding_all rfl⟩

/-- C2 (amended): validation produces the human-readable message for an
out-of-range `size_drop_threshold` or an empty trusted-uploader list, and
it is the CLI front-end, not the engine, that refuses to start the pipeline
when validation reports any error. -/
theorem spec_c2_validation_refusal (cfg : FilterConfig) :
    (¬(0 < cfg.size_drop_threshold ∧ cfg.size_drop_threshold < 1) →
      "size_drop_threshold must be between 0 and 1" ∈ cfg.validate) ∧
    (cfg.trusted_uploaders = [] →
      "trusted_uploaders list cannot be empty" ∈ cfg.validate) ∧
    (cfg.validate ≠ [] → cliStartsPipeline cfg = false) := by
  refine ⟨?_, ?_, ?_⟩
  · intro h
    simp [FilterConfig.validate, h]
  · intro h
    simp [FilterConfig.validate, h]
  · intro h
    unfold cliStartsPipeline
    cases hv : cfg.validate with
    | nil => exact absurd hv h
    | cons a l => rfl

/-- C2 witness: the invalid configuration with threshold 2 yields the
expected message and the CLI guard refuses to start. -/
theorem spec_c2_validation_refusal_witness :
    "size_drop_threshold must be between 0 and 1" ∈ badCfg.validate ∧
    cliStartsPipeline badCfg = false :=
  ⟨(spec_c2_validation_refusal badCfg).1 (by with_unfolding_all decide),
   (spec_c2_validation_refusal badCfg).2.2 (by with_unfolding_all decide)⟩

/-- C1 counterexample: on the scenario group the per-group selection keeps
the Q8_0 variant (the first-evaluated variant is always kept as the size
anchor, regardless of its 40 downloads), so the kept set is not
[F16, Q4_K_M, Q2_K]. -/
theorem spec_c1_counterexample :
    "Q8_0" ∈ c1kept ∧ c1kept ≠ ["F16", "Q4_K_M", "Q2_K"] := by
  with_unfolding_all decide

/-- C1 (amended): with `min_downloads = 100`, `size_drop_threshold = 0.05`
and a minimum size below 60 MB, the per-group selection on the scenario
group keeps exactly [Q8_0, Q4_K_M, Q2_K, F16]: Q8_0 as the always-kept
first variant, Q4_K_M via the trusted-uploader bypass, Q2_K via the
qualifying size drop, and the base F16 appended after the variants. -/
theorem spec_c1_scenario_selection :
    c1kept = ["Q8_0", "Q4_K_M", "Q2_K", "F16"] := by
  with_unfolding_all decide

/-- C4 counterexample: the entry named `codellama-instructions` matches no
fine-tune vocabulary pattern, no heuristic indicator, no base pattern, and
no base indicator, yet `is_base_model` returns false because the CodeLlama
special rule classifies it as fine-tuned. -/
theorem spec_c4_counterexample :
    finetuneVocabMatch defaultConfig c4bad = false ∧
    finetuneIndicatorMatch c4bad = false ∧
    basePatternMatch c4bad = false ∧
    baseIndicatorMatch c4bad = false ∧
    codellamaRule c4bad = true ∧
    is_base_model defaultConfig c4bad = false := by
  with_unfolding_all decide

/-- C4 (amended): for every entry on which no fine-tune vocabulary pattern,
no CodeLlama special rule, and no fine-tune heuristic indicator fires, and
no base pattern or base indicator matches either, `is_base_model` returns
true — the conservative default. -/
theorem spec_c4_conservative_default (cfg : FilterConfig) (m : Model)
    (h1 : finetuneVocabMatch cfg m = false)
    (h2 : codellamaRule m = false)
    (h3 : finetuneIndicatorMatch m = false)
    (h4 : basePatternMatch m = false)
    (h5 : baseIndicatorMatch m = false) :
    is_base_model cfg m = true := by
  simp [is_base_model, is_finetuned, h1, h2, h3, h4, h5]

/-- C4 witness: an entry with no signal at all is classified base. -/
theorem spec_c4_conservative_default_witness :
    is_base_model defaultConfig c4good = true :=
  spec_c4_conservative_default defaultConfig c4good (by with_unfolding_all decide)
    (by with_unfolding_all decide) (by with_unfolding_all decide)
    (by with_unfolding_all decide) (by with_unfolding_all decide)

instance : DecidableRel sizeGT :=
  fun _ _ => Int.decLt _ _

theorem pyDlVal_ok_dlInt (m : Model) (d : Int) (h : pyDlVal m.downloadCount = .ok d) :
    dlInt m = d := by
  cases hm : m.downloadCount with
  | vint n => simp only [pyDlVal, hm, Except.ok.injEq] at h; simp [dlInt, hm, h]
  | vstr s => simp [pyDlVal, hm] at h
  | vnone => simp only [pyDlVal, hm, Except.ok.injEq] at h; simp [dlInt, hm, ← h]

theorem drop_ok_true (v lastKept : Model) (thr : ℚ) (ht : thr < 1)
    (h : hasSignificantSizeDrop v lastKept thr = .ok true) :
    1 - msizeQ v / msizeQ lastKept > thr := by
  unfold hasSignificantSizeDrop at h
  split at h
  case isTrue hz =>
    have hm : msizeQ lastKept = 0 := by
      cases hl : lastKept.fileSize with
      | vint n => simp only [pyEqZero, hl, decide_eq_true_eq] at hz; simp [msizeQ, hl, hz]
      | vstr s => simp [pyEqZero, hl] at hz
      | vnone => simp [pyEqZero, hl] at hz
    rw [hm, div_zero, sub_zero]
    exact ht
  case isFalse hz =>
    cases hv : v.fileSize <;> cases hl : lastKept.fileSize <;>
      simp [pySizeQ, hv, hl, bind, Except.bind, pure, Except.pure] at h
    case vint.vint n n' =>
      simpa [msizeQ, hv, hl] using h

theorem shouldKeep_pairOk (cfg : FilterConfig) (v : Model) (kept : List Model)
    (lastKept : Model) (hl : kept.getLast? = some lastKept)
    (ht : cfg.size_drop_threshold < 1)
    (h : shouldKeepVariant cfg v kept = .ok true) :
    pairOk cfg lastKept v kept := by
  unfold shouldKeepVariant at h
  rw [hl] at h
  by_cases htr : isTrustedUploader cfg v
  · simp only [htr, if_true, meetsDownloadThreshold, bind, Except.bind] at h
    cases hd : pyDlVal v.downloadCount with
    | error e => rw [hd] at h; simp at h
    | ok d =>
      rw [hd] at h
      simp only [pure, Except.pure] at h
      by_cases h50 : d ≥ 50
      · exact Or.inl ⟨htr, by rw [pyDlVal_ok_dlInt v d hd]; exact h50⟩
      · simp only [decide_eq_false h50] at h
        by_cases hmin : d ≥ cfg.min_downloads
        · simp only [decide_eq_true hmin, Bool.not_true, Bool.false_eq_true, if_false] at h
          cases hdrop : hasSignificantSizeDrop v lastKept cfg.size_drop_threshold with
          | error e => rw [hdrop] at h; simp at h
          | ok b =>
            rw [hdrop] at h
            cases b with
            | true => exact Or.inr (Or.inl (drop_ok_true v lastKept _ ht hdrop))
            | false =>
              simp only [if_false] at h
              by_cases hfam : isDifferentQuantizationFamily v kept
              · simp only [hfam, if_true, hd] at h
                by_cases h2m : d ≥ cfg.min_downloads * 2
                · exact Or.inr (Or.inr ⟨by simpa using hfam,
                    by rw [pyDlVal_ok_dlInt v d hd]; exact h2m⟩)
                · simp [h2m] at h
              · simp [hfam] at h
        · simp [hmin] at h
  · simp only [htr, if_false, pure, Except.pure, bind, Except.bind,
      meetsDownloadThreshold] at h
    cases hd : pyDlVal v.downloadCount with
    | error e => rw [hd] at h; simp at h
    | ok d =>
      rw [hd] at h
      simp only [pure, Except.pure] at h
      by_cases hmin : d ≥ cfg.min_downloads
      · simp only [decide_eq_true hmin, Bool.not_true, Bool.false_eq_true, if_false] at h
        cases hdrop : hasSignificantSizeDrop v lastKept cfg.size_drop_threshold with
        | error e => rw [hdrop] at h; simp at h
        | ok b =>
          rw [hdrop] at h
          cases b with
          | true => exact Or.inr (Or.inl (drop_ok_true v lastKept _ ht hdrop))
          | false =>
            simp only [if_false] at h
            by_cases hfam : isDifferentQuantizationFamily v kept
            · simp only [hfam, if_true, hd] at h
              by_cases h2m : d ≥ cfg.min_downloads * 2
              · exact Or.inr (Or.inr ⟨by simpa using hfam,
                  by rw [pyDlVal_ok_dlInt v d hd]; exact h2m⟩)
              · simp [h2m] at h
            · simp [hfam] at h
      · simp [hmin] at h

theorem filterLoop_extends (cfg : FilterConfig) :
    ∀ (vs kept out : List Model), filterLoop cfg vs kept = .ok out →
      ∃ extra, out = kept ++ extra ∧ extra.Sublist vs := by
  intro vs
  induction vs with
  | nil =>
    intro kept out h
    simp only [filterLoop, Except.ok.injEq] at h
    exact ⟨[], by simp [h], List.Sublist.refl []⟩
  | cons v vs ih =>
    intro kept out h
    unfold filterLoop at h
    cases hs : shouldKeepVariant cfg v kept with
    | error e => rw [hs] at h; simp [bind, Except.bind] at h
    | ok b =>
      rw [hs] at h
      simp only [bind, Except.bind] at h
      cases b with
      | true =>
        obtain ⟨extra, hout, hsub⟩ := ih (kept ++ [v]) out (by simpa using h)
        exact ⟨v :: extra, by simp [hout], hsub.cons₂ v⟩
      | false =>
        obtain ⟨extra, hout, hsub⟩ := ih kept out (by simpa using h)
        exact ⟨extra, hout, hsub.cons v⟩

theorem pairsOkFrom_append (cfg : FilterConfig) :
    ∀ (kept pre : List Model) (v : Model),
      pairsOkFrom cfg pre kept →
      (∀ lastKept, kept.getLast? = some lastKept → pairOk cfg lastKept v (pre ++ kept)) →
      pairsOkFrom cfg pre (kept ++ [v]) := by
  intro kept
  induction kept with
  | nil =>
    intro pre v _ _
    simp [pairsOkFrom]
  | cons a rest ih =>
    intro pre v hp hlast
    cases rest with
    | nil => exact ⟨hlast a rfl, trivial⟩
    | cons b rest2 =>
      refine ⟨hp.1, ?_⟩
      refine ih (pre ++ [a]) v hp.2 ?_
      intro lastKept hl
      have h1 := hlast lastKept (by rw [List.getLast?_cons_cons]; exact hl)
      simpa [List.append_assoc] using h1

theorem filterLoop_pairsOk (cfg : FilterConfig) (ht : cfg.size_drop_threshold < 1) :
    ∀ (vs kept out : List Model), pairsOkFrom cfg [] kept →
      filterLoop cfg vs kept = .ok out → pairsOkFrom cfg [] out := by
  intro vs
  induction vs with
  | nil =>
    intro kept out hp h
    simp only [filterLoop, Except.ok.injEq] at h
    exact h ▸ hp
  | cons v vs ih =>
    intro kept out hp h
    unfold filterLoop at h
    cases hs : shouldKeepVariant cfg v kept with
    | error e => rw [hs] at h; simp [bind, Except.bind] at h
    | ok b =>
      rw [hs] at h
      simp only [bind, Except.bind] at h
      cases b with
      | false => exact ih kept out hp (by simpa using h)
      | true =>
        refine ih (kept ++ [v]) out ?_ (by simpa using h)
        refine pairsOkFrom_append cfg kept [] v hp ?_
        intro lastKept hl
        simpa using shouldKeep_pairOk cfg v kept lastKept hl ht hs

/-- C5 counterexample: on the (weakly) size-descending input of two
equal-size trusted variants, the kept list is both of them in order, which
is not strictly size-descending — the sort used by the selector is
non-strict, so the claim as stated fails on ties. -/
theorem spec_c5_counterexample :
    filterQuantizedVariants defaultConfig [c5a, c5b] = .ok [c5a, c5b] ∧
    msizeInt c5b ≤ msizeInt c5a ∧
    ¬ List.Pairwise sizeGT [c5a, c5b] := by
  refine ⟨by with_unfolding_all rfl, by with_unfolding_all decide,
    by with_unfolding_all decide⟩

/-- C5 (amended): for every strictly size-descending input list, the kept
list of `filter_quantized_variants` is strictly size-descending, and every
consecutive kept pair was admitted by the trusted-uploader exception, a
qualifying relative size drop, or the family-diversity exception (for any
configuration whose drop threshold is below 1, as every valid one is). -/
theorem spec_c5_kept_list_invariant (cfg : FilterConfig) (vs kept : List Model)
    (ht : cfg.size_drop_threshold < 1)
    (h : filterQuantizedVariants cfg vs = .ok kept)
    (hd : List.Pairwise sizeGT vs) :
    List.Pairwise sizeGT kept ∧ pairsOkFrom cfg [] kept := by
  unfold filterQuantizedVariants at h
  split at h
  · simp only [Except.ok.injEq] at h
    subst h
    exact ⟨List.Pairwise.nil, trivial⟩
  · obtain ⟨extra, hout, hsub⟩ := filterLoop_extends cfg vs [] kept h
    have hkept : kept = extra := by simpa using hout
    rw [hkept]
    exact ⟨hd.sublist hsub, filterLoop_pairsOk cfg ht vs [] extra trivial (hkept ▸ h)⟩

/-- C5 witness: a strictly descending two-variant input is kept whole, is
strictly descending, and its one consecutive pair is admissible. -/
theorem spec_c5_kept_list_invariant_witness :
    List.Pairwise sizeGT [c5w1, c5w2] ∧ pairsOkFrom defaultConfig [] [c5w1, c5w2] :=
  spec_c5_kept_list_invariant defaultConfig [c5w1, c5w2] [c5w1, c5w2]
    (by with_unfolding_all decide)
    (by with_unfolding_all rfl)
    (by with_unfolding_all decide)

end SpamFilter
